import Mathlib

/-!
# Verification of the Up Bank → Lunch Money sync core

A shallow embedding of the repository's Lambda functions:

* `src/lambda/processor/processor.py` — webhook event processor and the
  transaction converter `convert_to_lunchmoney_format`;
* `src/lambda/account_sync/account_sync.py` and
  `src/lambda/category_sync/category_sync.py` — sync orchestrators and the
  create-or-find reference resolvers;
* `src/lambda/webhook/webhook.py` — webhook ingestor with HMAC verification;
* `src/lambda/dlq_redrive/dlq_redrive.py` — DLQ redrive loop.

Modelling conventions:

* Loosely-typed JSON payloads are modelled by structures whose fields are
  `Option`-valued (a `none` models an absent key, matching the code's
  `dict.get` chains).  Dicts are assumed to carry only the keys the code
  reads, so dict truthiness (`if some_dict:`) is modelled as "some modelled
  field is present".
* Python `float` values are modelled exactly as decimal numbers
  `mantissa / 10 ^ exp` (an `Int × Nat` pair).  `float(x)` on a string is
  modelled by a parser for the plain decimal literal subset (optional sign,
  digits, optional fractional part); `str(float(...))` is modelled by
  `decStr`, which strips trailing fractional zeros and renders integers with
  a trailing `".0"`, matching CPython's shortest round-trip repr on the
  money-sized decimal values this system handles (negative zero is
  identified with zero).
* I/O collaborators (Up API, Lunch Money API, DynamoDB, SQS, Secrets
  Manager) are passed in as explicit function parameters / association
  lists; a raised Python exception is modelled by `Except.error`, and the
  code's `logger` calls by explicit log/warning lists where a claim
  mentions them.
-/

/-! ## Python scalar values and `float` parsing -/

/-- A Python scalar as it may appear in a JSON payload position that the
code feeds to `float(...)` or truth-tests.  `pyNum m e` is an `int`/`float`
with exact decimal value `m / 10 ^ e`; `pyStr` a string; `pyOther` any
other object (dict/list/bool wrapper) with the given truthiness, on which
`float` raises `TypeError`. -/
inductive PyVal where
  | pyStr (s : String)
  | pyNum (m : Int) (e : Nat)
  | pyNone
  | pyOther (truthy : Bool)
deriving DecidableEq

/-- Python truthiness of a scalar: empty string, zero, and `None` are
falsy. -/
def pyTruthy : PyVal → Bool
  | .pyStr s => !s.isEmpty
  | .pyNum m _ => m != 0
  | .pyNone => false
  | .pyOther b => b

/-- Fold decimal digit characters into a natural number. -/
def natOfDigits (l : List Char) : Nat :=
  l.foldl (fun n c => n * 10 + (c.toNat - 48)) 0

/-- Parse an unsigned decimal literal (`"12"`, `"12.5"`, `"12."`, `".5"`)
into `(mantissa, exponent)`; `none` if the characters are not such a
literal. -/
def parseUnsignedDec (l : List Char) : Option (Nat × Nat) :=
  let ip := l.takeWhile (·.isDigit)
  let rest := l.drop ip.length
  match rest with
  | [] => if ip.isEmpty then none else some (natOfDigits ip, 0)
  | '.' :: fp =>
    if fp.all (·.isDigit) && (!ip.isEmpty || !fp.isEmpty) then
      some (natOfDigits ip * 10 ^ fp.length + natOfDigits fp, fp.length)
    else none
  | _ => none

/-- Parse a signed decimal literal. -/
def parseSignedDec (l : List Char) : Option (Int × Nat) :=
  match l with
  | '-' :: r => (parseUnsignedDec r).map (fun p => (-(p.1 : Int), p.2))
  | '+' :: r => (parseUnsignedDec r).map (fun p => ((p.1 : Int), p.2))
  | _ => (parseUnsignedDec l).map (fun p => ((p.1 : Int), p.2))

/-- Model of Python `float(x)`: `some (m, e)` means the call succeeds and
returns the exact decimal value `m / 10 ^ e`; `none` means it raises
`ValueError`/`TypeError`.  Strings are restricted to the plain decimal
literal subset (no exponent / inf / nan forms, which this system never
receives for money amounts). -/
def pyFloat : PyVal → Option (Int × Nat)
  | .pyStr s => parseSignedDec s.toList
  | .pyNum m e => some (m, e)
  | .pyNone => none
  | .pyOther _ => none

/-- Remove trailing decimal zeros: divide the mantissa by 10 while the
exponent is positive and the mantissa is divisible. -/
def stripZeros : Int → Nat → Int × Nat
  | m, 0 => (m, 0)
  | m, e + 1 => if m % 10 = 0 then stripZeros (m / 10) e else (m, e + 1)

/-- Left-pad a digit string with zeros to the given length. -/
def padZeros (s : String) (k : Nat) : String :=
  String.mk (List.replicate (k - s.length) '0') ++ s

/-- Model of Python `str(float_value)` on the exact decimal
`m / 10 ^ e`: trailing fractional zeros are dropped and integral values are
rendered with a `".0"` suffix (`str(float("-25.50")) = "-25.5"`,
`str(float("0")) = "0.0"`). -/
def decStr (m : Int) (e : Nat) : String :=
  let p := stripZeros m e
  let sign := if p.1 < 0 then "-" else ""
  let a := p.1.natAbs
  if p.2 = 0 then sign ++ toString a ++ ".0"
  else sign ++ toString (a / 10 ^ p.2) ++ "." ++ padZeros (toString (a % 10 ^ p.2)) p.2

/-! ## Up transaction payloads (processor.py input shape) -/

/-- The value under an `"amount"`-shaped key: either a JSON object with
optional `value` / `currencyCode` members, or a bare non-dict scalar
(the code branches on `isinstance(amount, dict)`). -/
inductive AmountVal where
  | obj (value : Option PyVal) (currencyCode : Option String)
  | scalar (v : PyVal)
deriving DecidableEq

/-- Python truthiness of an amount position: a dict is truthy when
non-empty (i.e. some modelled key present), a scalar by `pyTruthy`. -/
def AmountVal.truthy : AmountVal → Bool
  | .obj v c => v.isSome || c.isSome
  | .scalar v => pyTruthy v

/-- `x.get("value", "0") if isinstance(x, dict) else x` — the scalar the
code feeds to `float` for an amount position. -/
def AmountVal.valueScalar : AmountVal → PyVal
  | .obj v _ => v.getD (.pyStr "0")
  | .scalar v => v

/-- The `roundUp` attribute object (modelled keys only). -/
structure RoundUpVal where
  amount : Option AmountVal
deriving DecidableEq

/-- `attributes` of an Up transaction; `none` fields model absent keys
(`attributes.get(...)` default paths). -/
structure UpAttributes where
  amount : Option AmountVal
  description : Option String
  message : Option String
  settledAt : Option String
  createdAt : Option String
  roundUp : Option RoundUpVal
deriving DecidableEq

/-- `relationships` of an Up transaction.  `account`/`category` is
`some aid` when the chain
`relationships.get(X, {}).get("data", {})` yields a truthy dict carrying
`"id": aid`; `none` collapses the behaviourally identical absent/falsy
cases. -/
structure UpRelationships where
  account : Option String
  category : Option String
deriving DecidableEq

/-- An Up transaction resource as read by
`convert_to_lunchmoney_format`. -/
structure UpTransaction where
  id : Option String
  attributes : UpAttributes
  relationships : UpRelationships
deriving DecidableEq

/-! ## Lunch Money transaction records (converter output) -/

/-- A Lunch Money transaction dict as built by the converter; `none` in
`asset_id` / `category_id` / `external_id` models an absent key /
`None`. -/
structure LMRecord where
  payee : String
  amount : String
  notes : String
  date : String
  external_id : Option String
  currency : String
  status : String
  asset_id : Option Int
  category_id : Option Int
deriving DecidableEq

/-- The converter returns either a single dict or a two-element list
`[parent, roundup]`. -/
inductive ConvResult where
  | single (t : LMRecord)
  | pair (parent roundup : LMRecord)
deriving DecidableEq

/-- The list of records the processor iterates over
(`isinstance(transactions_to_sync, list)` branch). -/
def ConvResult.toList : ConvResult → List LMRecord
  | .single t => [t]
  | .pair p r => [p, r]

/-- The parent (first) record of a conversion result. -/
def ConvResult.mainRecord : ConvResult → LMRecord
  | .single t => t
  | .pair p _ => p

/-- The round-up (second) record, when present. -/
def ConvResult.childRecord : ConvResult → Option LMRecord
  | .single _ => none
  | .pair _ r => some r

/-- Warnings the converter logs (`logger.warning` calls in the mapping
lookup paths). -/
inductive ConvWarning where
  | noAssetMapping (upAccountId : String)
  | noCategoryMapping (upCategoryId : String)
deriving DecidableEq

/-- Converter output: the record(s) plus logged warnings. -/
structure ConvOut where
  result : ConvResult
  warnings : List ConvWarning
deriving DecidableEq

/-- Python `x or y` on an optional string (`None`/`""` are falsy). -/
def orElseStr (x : Option String) (y : String) : String :=
  match x with
  | some s => if s.isEmpty then y else s
  | none => y

/-- `f"{x}"` on an optional string (`None` renders as `"None"`). -/
def pyFString : Option String → String
  | some s => s
  | none => "None"

/-- Lines 241–252 of `processor.py`: look up the account mapping and
attach `asset_id`, or log a warning.  The mapping store lookup
`get_account_mapping` (DynamoDB read + truthiness check + `int(...)`) is
modelled by `acctMap : String → Option Int`. -/
def applyAccountMapping (acctMap : String → Option Int) (acc : Option String)
    (r : LMRecord) : LMRecord × List ConvWarning :=
  match acc with
  | some aid =>
    if aid.isEmpty then (r, [])
    else
      match acctMap aid with
      | some i => ({ r with asset_id := some i }, [])
      | none => (r, [.noAssetMapping aid])
  | none => (r, [])

/-- Lines 254–265 of `processor.py`: the category twin of
`applyAccountMapping`. -/
def applyCategoryMapping (catMap : String → Option Int) (cat : Option String)
    (r : LMRecord) : LMRecord × List ConvWarning :=
  match cat with
  | some cid =>
    if cid.isEmpty then (r, [])
    else
      match catMap cid with
      | some i => ({ r with category_id := some i }, [])
      | none => (r, [.noCategoryMapping cid])
  | none => (r, [])

/-- `attributes.get("amount", {})` followed by the extraction of the value
scalar (`processor.py` lines 200–201). -/
def amountValueOf : Option AmountVal → PyVal
  | none => .pyStr "0"
  | some a => a.valueScalar

/-- `amount.get("currencyCode", "AUD") if isinstance(amount, dict) else
"AUD"` (line 202, before the `.lower()`). -/
def currencyRawOf : Option AmountVal → String
  | none => "AUD"
  | some (.obj _ c) => c.getD "AUD"
  | some (.scalar _) => "AUD"

/-- Lines 225–226: drop the time-of-day portion of an ISO datetime
(`if transaction_date and "T" in transaction_date:
transaction_date.split("T")[0]`).  `"T" in s` is character containment and
`s.split("T")[0]` is the prefix before the first `'T'`, modelled over the
character list. -/
def truncDate (d : String) : String :=
  if !d.isEmpty && d.toList.contains 'T' then String.mk (d.toList.takeWhile (· != 'T'))
  else d

/-- Lines 199–239 of `processor.py`: the main Lunch Money record before
the mapping lookups attach `asset_id` / `category_id`. -/
def baseRecordOf (now : String) (tx : UpTransaction) : LMRecord :=
  let attributes := tx.attributes
  let amountParsed := (pyFloat (amountValueOf attributes.amount)).getD (0, 0)
  let message := attributes.message.getD ""
  { payee := attributes.description.getD "Unknown"
    amount := decStr amountParsed.1 amountParsed.2
    notes := if message.isEmpty then "" else message
    date := truncDate (orElseStr attributes.settledAt (orElseStr attributes.createdAt now))
    external_id := tx.id
    -- `.lower()`, modelled per character over the list
    currency := String.mk ((currencyRawOf attributes.amount).toList.map Char.toLower)
    status := "uncleared"
    asset_id := none
    category_id := none }

/-- `convert_to_lunchmoney_format` (`processor.py`, lines 191–299).
`now` is the ISO string `datetime.now().isoformat()` would produce. -/
def convert_to_lunchmoney_format (acctMap catMap : String → Option Int)
    (now : String) (tx : UpTransaction) : ConvOut :=
  let attributes := tx.attributes
  let base0 := baseRecordOf now tx
  let aw := applyAccountMapping acctMap tx.relationships.account base0
  let cw := applyCategoryMapping catMap tx.relationships.category aw.1
  let base := cw.1
  let warnings := aw.2 ++ cw.2
  -- round-up branch: `if roundup_data and roundup_data.get("amount"):`
  match attributes.roundUp with
  | some ru =>
    match ru.amount with
    | some av =>
      if av.truthy then
        let rp := (pyFloat av.valueScalar).getD (0, 0)
        if rp.1 ≠ 0 then
          let child : LMRecord :=
            { payee := "Round Up"
              amount := decStr rp.1 rp.2
              notes := "Round up for: " ++ base0.payee
              date := base0.date
              external_id := some (pyFString tx.id ++ "-roundup")
              currency := base0.currency
              status := "uncleared"
              asset_id := base.asset_id
              category_id := none }
          { result := .pair base child, warnings := warnings }
        else { result := .single base, warnings := warnings }
      else { result := .single base, warnings := warnings }
    | none => { result := .single base, warnings := warnings }
  | none => { result := .single base, warnings := warnings }

/-- The round-up sub-amount a transaction carries, as the code parses it:
`some (m, e)` when the round-up gates pass (`roundUp` present and its
`amount` truthy), with `(m, e)` the parsed value (parse failures default
to zero, as in the code); `none` when no round-up sub-amount is
carried. -/
def roundupValue (a : UpAttributes) : Option (Int × Nat) :=
  match a.roundUp with
  | some ru =>
    match ru.amount with
    | some av => if av.truthy then some ((pyFloat av.valueScalar).getD (0, 0)) else none
    | none => none
  | none => none

/-- The transaction's amount value is non-numeric or absent: the `amount`
key is missing, its `value` member is missing, or the scalar in value
position is rejected by `float(...)`. -/
def amountNonNumeric (tx : UpTransaction) : Bool :=
  match tx.attributes.amount with
  | none => true
  | some (.obj none _) => true
  | some (.obj (some v) _) => (pyFloat v).isNone
  | some (.scalar v) => (pyFloat v).isNone

/-- The parent record the converter emits: the base record after both
mapping applications. -/
def convMain (A C : String → Option Int) (now : String) (tx : UpTransaction) : LMRecord :=
  (applyCategoryMapping C tx.relationships.category
    (applyAccountMapping A tx.relationships.account (baseRecordOf now tx)).1).1

/-- The round-up child record the converter emits when the round-up value
parses to the non-zero decimal `m / 10 ^ e` (lines 282–294 of
`processor.py`). -/
def convChild (A C : String → Option Int) (now : String) (tx : UpTransaction)
    (m : Int) (e : Nat) : LMRecord :=
  { payee := "Round Up"
    amount := decStr m e
    notes := "Round up for: " ++ (baseRecordOf now tx).payee
    date := (baseRecordOf now tx).date
    external_id := some (pyFString tx.id ++ "-roundup")
    currency := (baseRecordOf now tx).currency
    status := "uncleared"
    asset_id := (convMain A C now tx).asset_id
    category_id := none }

/-! ## Event processor (`processor.py`, `handler` / `process_transaction_event`) -/

/-- A queued webhook message, as the processor reads it after
`json.loads`: `eventType` is
`data.attributes.eventType` (default `""`), `transactionId` the chain
`data.relationships.transaction.data.id`. -/
structure WebhookMsg where
  eventType : String
  transactionId : Option String
deriving DecidableEq

/-- The processor's I/O collaborators: `fetchUp` models
`fetch_up_transaction` (which returns `None` on any Up API error or
exception), `syncLM` models `sync_to_lunchmoney` (which raises on any
non-200 response or request error), and the mapping stores and clock feed
the converter.  Secrets retrieval is assumed to succeed. -/
structure ProcEnv where
  fetchUp : String → Option UpTransaction
  syncLM : LMRecord → Except String Unit
  acctMap : String → Option Int
  catMap : String → Option Int
  now : String

/-- `logger.error` / `logger.info` events of the processor that claims
refer to. -/
inductive ProcLog where
  | noTransactionId
  | fetchFailed (tid : String)
  | ping
  | ignored (eventType : String)
deriving DecidableEq

/-- Outcome of a processor run: the records submitted to Lunch Money (in
order), the log events, and whether the run returned normally (`ok`) or
raised (`error`). -/
structure ProcOut where
  attempts : List LMRecord
  logs : List ProcLog
  result : Except String Unit

/-- Lines 103–107 of `processor.py`: submit each converted record in
order; a raised exception aborts the loop.  Returns the attempted
submissions and the final outcome. -/
def syncSeq (syncLM : LMRecord → Except String Unit) :
    List LMRecord → List LMRecord × Except String Unit
  | [] => ([], .ok ())
  | t :: ts =>
    match syncLM t with
    | .error e => ([t], .error e)
    | .ok () =>
      let rest := syncSeq syncLM ts
      (t :: rest.1, rest.2)

/-- `process_transaction_event` (`processor.py` lines 66–107): extract the
transaction id (falsy id → log and return), fetch the transaction (fetch
failure → log and return **normally**), convert, and submit each resulting
record. -/
def process_transaction_event (env : ProcEnv) (wd : WebhookMsg) : ProcOut :=
  match wd.transactionId with
  | none => { attempts := [], logs := [.noTransactionId], result := .ok () }
  | some tid =>
    if tid.isEmpty then { attempts := [], logs := [.noTransactionId], result := .ok () }
    else
      match env.fetchUp tid with
      | none => { attempts := [], logs := [.fetchFailed tid], result := .ok () }
      | some tr =>
        let conv := convert_to_lunchmoney_format env.acctMap env.catMap env.now tr
        let s := syncSeq env.syncLM conv.result.toList
        { attempts := s.1, logs := [], result := s.2 }

/-- `handler` (`processor.py` lines 37–63): iterate the SQS records,
filter by event type, and re-raise any exception so SQS retries the batch
(aborting the remaining records).  Records arrive pre-parsed; a
`json.loads` failure would also raise. -/
def processor_handler (env : ProcEnv) : List WebhookMsg → ProcOut
  | [] => { attempts := [], logs := [], result := .ok () }
  | wd :: rest =>
    if wd.eventType == "TRANSACTION_CREATED" || wd.eventType == "TRANSACTION_UPDATED" then
      let out := process_transaction_event env wd
      match out.result with
      | .error e => { attempts := out.attempts, logs := out.logs, result := .error e }
      | .ok () =>
        let r := processor_handler env rest
        { attempts := out.attempts ++ r.attempts
          logs := out.logs ++ r.logs
          result := r.result }
    else if wd.eventType == "PING" then
      let r := processor_handler env rest
      { attempts := r.attempts, logs := .ping :: r.logs, result := r.result }
    else
      let r := processor_handler env rest
      { attempts := r.attempts, logs := .ignored wd.eventType :: r.logs, result := r.result }

/-! ## Sync orchestrators (`account_sync.py` / `category_sync.py`) -/

/-- The `balance` attribute object of an Up account (modelled keys
only). -/
structure BalanceObj where
  value : Option PyVal
deriving DecidableEq

/-- An Up account as read by the account sync handler (lines 67–72).
`id` is assumed present, as the Up API guarantees; `balance = none`
models an absent or falsy (`{}`) balance dict. -/
structure UpAccount where
  id : String
  displayName : Option String
  accountType : Option String
  balance : Option BalanceObj
deriving DecidableEq

/-- `float(balance_obj.get("value", 0)) if balance_obj else 0.0`
(line 72): `none` models the raised `ValueError`/`TypeError`, which the
per-item `except` catches. -/
def balanceOf (a : UpAccount) : Option (Int × Nat) :=
  match a.balance with
  | none => some (0, 0)
  | some b => pyFloat (b.value.getD (.pyNum 0 0))

/-- A Lunch Money asset as returned by `GET /assets` (modelled keys
only). -/
structure LMAsset where
  id : Option Int
  name : Option String
deriving DecidableEq

/-- The `POST /assets` payload (lines 220–225). -/
structure AssetPayload where
  type_name : String
  name : Option String
  balance : Int × Nat
  currency : String
deriving DecidableEq

/-- The Lunch Money create-call outcome: a 200 response carrying the new
id (possibly absent in the body), or a non-success response (which the
code turns into a raised exception). -/
inductive CreateResp where
  | success (id : Option Int)
  | failure (msg : String)
deriving DecidableEq

/-- `type_mapping.get(account_type, "cash")` with
`{"SAVER": "cash", "TRANSACTIONAL": "cash"}` (lines 215–221). -/
def upTypeMapping : Option String → String
  | some "SAVER" => "cash"
  | some "TRANSACTIONAL" => "cash"
  | _ => "cash"

/-- The payload `create_or_find_lunchmoney_asset` posts. -/
def mkAssetPayload (name : Option String) (atype : Option String)
    (bal : Int × Nat) : AssetPayload :=
  { type_name := upTypeMapping atype, name := name, balance := bal, currency := "aud" }

/-- `create_or_find_lunchmoney_asset` (`account_sync.py` lines 193–247):
first exact display-name match among the existing assets wins (Python
`==`, so `None == None` matches); otherwise POST a new asset.  Returns
the resolution result (`error` models the raised exception on a
non-success create response) together with the number of create calls
issued (0 or 1). -/
def create_or_find_lunchmoney_asset (createResp : AssetPayload → CreateResp)
    (existing : List LMAsset) (name : Option String) (atype : Option String)
    (bal : Int × Nat) : Except String (Option Int) × Nat :=
  match existing.find? (fun a => a.name == name) with
  | some a => (.ok a.id, 0)
  | none =>
    match createResp (mkAssetPayload name atype bal) with
    | .success aid => (.ok aid, 1)
    | .failure msg => (.error msg, 1)

/-- The DynamoDB mapping table: source id → stored `lunchmoney_id`
string.  `put_item` overwrites, modelled by prepending (lookups take the
first hit); denormalized display fields are omitted. -/
def MapTable : Type := List (String × String)

instance : DecidableEq MapTable := by
  unfold MapTable
  infer_instance

/-- `get_item` by source key (`get_existing_mapping`). -/
def tableGet (t : MapTable) (k : String) : Option String :=
  (t.find? (fun p => p.1 == k)).map (fun p => p.2)

/-- `put_item` (`save_account_mapping` / `save_category_mapping`). -/
def tablePut (t : MapTable) (k v : String) : MapTable :=
  (k, v) :: t

/-- The account sync handler's collaborators: the Up accounts listing,
the Lunch Money assets snapshot, and the create-call outcome (a function
of the payload — the unchanged-state assumption). -/
structure AcctEnv where
  upAccounts : List UpAccount
  lmAssets : List LMAsset
  createAsset : AssetPayload → CreateResp

/-- One iteration of the account loop (`account_sync.py` lines 65–115)
over the running `(table, synced_count, create_calls)` state: extraction
(the balance parse may raise), the existing-mapping skip branch, then
create-or-find; a falsy resolved id (`None` or `0`) logs
"Failed to sync"; a raised exception is caught and the loop continues. -/
def account_sync_step (env : AcctEnv) (st : MapTable × Nat × Nat) (acct : UpAccount) :
    MapTable × Nat × Nat :=
  match balanceOf acct with
  | none => (st.1, st.2.1, st.2.2)
  | some bal =>
    match tableGet st.1 acct.id with
    | some _ => (st.1, st.2.1 + 1, st.2.2)
    | none =>
      let res := create_or_find_lunchmoney_asset env.createAsset env.lmAssets
        acct.displayName acct.accountType bal
      match res.1 with
      | .ok (some lmid) =>
        if lmid == 0 then (st.1, st.2.1, st.2.2 + res.2)
        else (tablePut st.1 acct.id (toString lmid), st.2.1 + 1, st.2.2 + res.2)
      | .ok none => (st.1, st.2.1, st.2.2 + res.2)
      | .error _ => (st.1, st.2.1, st.2.2 + res.2)

/-- `handler` (`account_sync.py` lines 36–133): fold the account loop;
returns the final table, the reported `synced_count`, and the number of
create calls issued. -/
def account_sync_handler (env : AcctEnv) (table : MapTable) : MapTable × Nat × Nat :=
  env.upAccounts.foldl (account_sync_step env) (table, 0, 0)

/-- An Up category as read by the category sync handler (lines 67–77);
`parentId` is the `relationships.parent.data.id` chain (`none` for
absent/falsy). -/
structure UpCategory where
  id : String
  name : Option String
  parentId : Option String
deriving DecidableEq

/-- A Lunch Money category as returned by `GET /categories` (modelled
keys only). -/
structure LMCategory where
  id : Option Int
  name : Option String
deriving DecidableEq

/-- The `POST /categories` payload (lines 221–224). -/
structure CatPayload where
  name : Option String
  description : String
deriving DecidableEq

/-- `create_or_find_lunchmoney_category` (`category_sync.py` lines
200–249); `parentId` is accepted but unused, as in the code (the
hierarchy is flattened). -/
def create_or_find_lunchmoney_category (createResp : CatPayload → CreateResp)
    (existing : List LMCategory) (name : Option String) (parentId : Option String) :
    Except String (Option Int) × Nat :=
  match existing.find? (fun c => c.name == name) with
  | some c => (.ok c.id, 0)
  | none =>
    match createResp { name := name, description := "Synced from Up Bank" } with
    | .success cid => (.ok cid, 1)
    | .failure msg => (.error msg, 1)

/-- The category sync handler's collaborators. -/
structure CatEnv where
  upCategories : List UpCategory
  lmCategories : List LMCategory
  createCategory : CatPayload → CreateResp

/-- One iteration of the category loop (`category_sync.py` lines
65–121). -/
def category_sync_step (env : CatEnv) (st : MapTable × Nat × Nat) (cat : UpCategory) :
    MapTable × Nat × Nat :=
  match tableGet st.1 cat.id with
  | some _ => (st.1, st.2.1 + 1, st.2.2)
  | none =>
    let res := create_or_find_lunchmoney_category env.createCategory env.lmCategories
      cat.name cat.parentId
    match res.1 with
    | .ok (some lmid) =>
      if lmid == 0 then (st.1, st.2.1, st.2.2 + res.2)
      else (tablePut st.1 cat.id (toString lmid), st.2.1 + 1, st.2.2 + res.2)
    | .ok none => (st.1, st.2.1, st.2.2 + res.2)
    | .error _ => (st.1, st.2.1, st.2.2 + res.2)

/-- `handler` (`category_sync.py` lines 36–139). -/
def category_sync_handler (env : CatEnv) (table : MapTable) : MapTable × Nat × Nat :=
  env.upCategories.foldl (category_sync_step env) (table, 0, 0)

/-! ## Webhook ingestor (`webhook.py`) -/

/-- The webhook handler's collaborators: the shared secret, the
HMAC-SHA256 hex digest function `hmacHex secret body` (the cryptographic
primitive is a black box; the handler only compares its output),
`json.loads` (`none` models a raised parse error), and the SQS send
outcome. -/
structure WebhookEnv where
  secret : String
  hmacHex : String → String → String
  parse : String → Option WebhookMsg
  sendOk : Bool

/-- Outcome of the webhook handler: the HTTP status code and the
`sqs.send_message` calls attempted (in order). -/
structure WebhookOut where
  statusCode : Nat
  enqueued : List WebhookMsg
deriving DecidableEq

/-- `handler` (`webhook.py` lines 34–121): reject with 403 when the
signature header is missing or falsy, or when it differs from the
expected HMAC digest over the raw body (`hmac.compare_digest` is
constant-time string equality); only then parse the body (a parse error
is caught and returns 500 with nothing enqueued) and enqueue the webhook
data.  A send failure raises and is caught as a 500 after the send was
attempted.  The model takes string bodies (the `isBase64Encoded` /
non-string branches only normalise the body into the same raw bytes). -/
def webhook_handler (env : WebhookEnv) (signature : Option String) (body : String) :
    WebhookOut :=
  match signature with
  | none => { statusCode := 403, enqueued := [] }
  | some s =>
    if s.isEmpty then { statusCode := 403, enqueued := [] }
    else if s ≠ env.hmacHex env.secret body then { statusCode := 403, enqueued := [] }
    else
      match env.parse body with
      | none => { statusCode := 500, enqueued := [] }
      | some wd =>
        if env.sendOk then { statusCode := 200, enqueued := [wd] }
        else { statusCode := 500, enqueued := [wd] }

/-! ## DLQ redrive (`dlq_redrive.py`) -/

/-- An SQS message as the redrive loop handles it (id, body; receipt
handle and attributes are carried along unchanged and omitted from the
model). -/
structure SqsMsg where
  msgId : String
  body : String
deriving DecidableEq

/-- Running state of the redrive handler: the counters
(`redriven_count` / `failed_count`), plus the observable SQS effects —
messages whose send to the main queue was attempted, those successfully
sent, those deleted from the DLQ, and received messages left un-deleted
(failed sends and inner-break skips return to the DLQ when their
visibility timeout expires). -/
structure RedriveAcc where
  redriven : Nat
  failed : Nat
  attempted : List SqsMsg
  sent : List SqsMsg
  deleted : List SqsMsg
  leftBehind : List SqsMsg
deriving DecidableEq

/-- The initial redrive state. -/
def initAcc : RedriveAcc :=
  { redriven := 0, failed := 0, attempted := [], sent := [], deleted := [], leftBehind := [] }

/-- The inner per-message loop (`dlq_redrive.py` lines 106–138):
check the `redriven_count >= max_messages` break, send to the main queue
(`sendOk` gives the outcome), delete from the DLQ only after a successful
send, and on a send failure increment the failure counter and continue
with the next message. -/
def processBatch (sendOk : SqsMsg → Bool) (maxM : Nat) (acc : RedriveAcc) :
    List SqsMsg → RedriveAcc
  | [] => acc
  | m :: rest =>
    if acc.redriven ≥ maxM then
      { acc with leftBehind := acc.leftBehind ++ (m :: rest) }
    else if sendOk m then
      processBatch sendOk maxM
        { acc with
          redriven := acc.redriven + 1
          attempted := acc.attempted ++ [m]
          sent := acc.sent ++ [m]
          deleted := acc.deleted ++ [m] } rest
    else
      processBatch sendOk maxM
        { acc with
          failed := acc.failed + 1
          attempted := acc.attempted ++ [m]
          leftBehind := acc.leftBehind ++ [m] } rest

/-- The `while redriven_count < max_messages` loop (lines 85–138):
receive up to `min(10, max_messages - redriven_count)` messages from the
front of the not-yet-received DLQ messages (`receive_message` modelled as
returning that many when available), break when the receive is empty,
else process the batch and continue.  The loop consumes at least one
pending message per iteration, so `pending.length` fuel is sufficient;
the fuel-zero case is unreachable from the handler's call. -/
def redriveLoop (sendOk : SqsMsg → Bool) (maxM : Nat) :
    Nat → RedriveAcc → List SqsMsg → RedriveAcc × List SqsMsg
  | 0, acc, pending => (acc, pending)
  | Nat.succ fuel, acc, pending =>
    if acc.redriven < maxM then
      if pending.take (min 10 (maxM - acc.redriven)) = [] then (acc, pending)
      else
        redriveLoop sendOk maxM fuel
          (processBatch sendOk maxM acc (pending.take (min 10 (maxM - acc.redriven))))
          (pending.drop (min 10 (maxM - acc.redriven)))
    else (acc, pending)

/-- Outcome of a DLQ redrive invocation. -/
structure RedriveOut where
  statusCode : Nat
  redrivenCount : Nat
  failedCount : Nat
  attempted : List SqsMsg
  sent : List SqsMsg
  deleted : List SqsMsg
  leftBehind : List SqsMsg
  remaining : List SqsMsg
deriving DecidableEq

/-- `handler` (`dlq_redrive.py` lines 30–165): the
`ApproximateNumberOfMessages == 0` early return (the count modelled as the
exact queue length), then the redrive loop; environment-variable and SQS
errors are out of scope.  `remaining` is what was never received. -/
def dlq_redrive_handler (sendOk : SqsMsg → Bool) (maxM : Nat)
    (dlq : List SqsMsg) : RedriveOut :=
  if dlq.length = 0 then
    { statusCode := 200, redrivenCount := 0, failedCount := 0, attempted := []
      sent := [], deleted := [], leftBehind := [], remaining := dlq }
  else
    let r := redriveLoop sendOk maxM dlq.length initAcc dlq
    { statusCode := 200
      redrivenCount := r.1.redriven
      failedCount := r.1.failed
      attempted := r.1.attempted
      sent := r.1.sent
      deleted := r.1.deleted
      leftBehind := r.1.leftBehind
      remaining := r.2 }

/-! ## Concrete fixtures (used by witness theorems) -/

/-- Mapping store with no records. -/
def mapNone : String → Option Int := fun _ => none

/-- Account mapping store returning asset id 33 for every key. -/
def mapA33 : String → Option Int := fun _ => some 33

/-- Category mapping store returning category id 7 for every key. -/
def mapC7 : String → Option Int := fun _ => some 7

/-- A fixed processing time. -/
def now0 : String := "2024-01-01T00:00:00"

/-- The spec's scenario transaction `txn-456` (`-25.50`, "Coffee shop"). -/
def txPlain : UpTransaction :=
  { id := some "txn-456"
    attributes :=
      { amount := some (.obj (some (.pyStr "-25.50")) (some "AUD"))
        description := some "Coffee shop"
        message := none
        settledAt := some "2024-01-05T10:00:00+10:00"
        createdAt := none
        roundUp := none }
    relationships := { account := none, category := none } }

/-- The spec's round-up scenario transaction (`roundUp.amount.value =
"-0.50"` on parent `txn-with-roundup`), with account and category
relationships attached. -/
def txRoundup : UpTransaction :=
  { id := some "txn-with-roundup"
    attributes :=
      { amount := some (.obj (some (.pyStr "-5.50")) (some "AUD"))
        description := some "Coffee shop"
        message := some "msg"
        settledAt := none
        createdAt := some "2024-01-05T10:00:00+10:00"
        roundUp := some { amount := some (.obj (some (.pyStr "-0.50")) (some "AUD")) } }
    relationships := { account := some "acct-1", category := some "cat-1" } }

/-- The parent record the converter produces for `txRoundup` under
`mapA33` / `mapC7`. -/
def lmParentFix : LMRecord :=
  { payee := "Coffee shop", amount := "-5.5", notes := "msg", date := "2024-01-05"
    external_id := some "txn-with-roundup", currency := "aud", status := "uncleared"
    asset_id := some 33, category_id := some 7 }

/-- The round-up child record the converter produces for `txRoundup` under
`mapA33` / `mapC7`. -/
def lmRoundupFix : LMRecord :=
  { payee := "Round Up", amount := "-0.5", notes := "Round up for: Coffee shop"
    date := "2024-01-05", external_id := some "txn-with-roundup-roundup"
    currency := "aud", status := "uncleared", asset_id := some 33, category_id := none }

/-- A queued `TRANSACTION_CREATED` event referencing `txn-1`. -/
def wdFetchFail : WebhookMsg :=
  { eventType := "TRANSACTION_CREATED", transactionId := some "txn-1" }

/-- A processor environment in which every Up API fetch fails (error or
not-found → `fetch_up_transaction` returns `None`). -/
def envFetchFail : ProcEnv :=
  { fetchUp := fun _ => none
    syncLM := fun _ => .ok ()
    acctMap := mapNone
    catMap := mapNone
    now := now0 }

/-- A queued `TRANSACTION_CREATED` event referencing `txn-with-roundup`. -/
def wdRoundup : WebhookMsg :=
  { eventType := "TRANSACTION_CREATED", transactionId := some "txn-with-roundup" }

/-- A processor environment in which the fetch succeeds with `txRoundup`
and the Lunch Money submission of the parent record fails. -/
def envParentFail : ProcEnv :=
  { fetchUp := fun tid => if tid = "txn-with-roundup" then some txRoundup else none
    syncLM := fun rec =>
      if rec.external_id = some "txn-with-roundup" then .error "boom" else .ok ()
    acctMap := mapA33
    catMap := mapC7
    now := now0 }

/-- Ten DLQ messages, matching the spec's redrive scenario. -/
def dlqFix : List SqsMsg :=
  [⟨"m1", "b1"⟩, ⟨"m2", "b2"⟩, ⟨"m3", "b3"⟩, ⟨"m4", "b4"⟩, ⟨"m5", "b5"⟩,
    ⟨"m6", "b6"⟩, ⟨"m7", "b7"⟩, ⟨"m8", "b8"⟩, ⟨"m9", "b9"⟩, ⟨"m10", "b10"⟩]

/-- A send outcome with one forced failure (message `m2`). -/
def sendOkFix : SqsMsg → Bool := fun m => m.msgId != "m2"

/-- Exactly five DLQ messages — as many as the redrive limit in the C9
counterexample — of which `m2` fails to send. -/
def dlqFix5 : List SqsMsg :=
  [⟨"m1", "b1"⟩, ⟨"m2", "b2"⟩, ⟨"m3", "b3"⟩, ⟨"m4", "b4"⟩, ⟨"m5", "b5"⟩]

/-- A concrete Up account. -/
def acctFix : UpAccount :=
  { id := "up-a1", displayName := some "Spending", accountType := some "TRANSACTIONAL"
    balance := some { value := some (.pyStr "10.00") } }

/-- An account sync environment with one account, no existing Lunch Money
assets, and a create call that succeeds with asset id 5. -/
def acctEnvFix : AcctEnv :=
  { upAccounts := [acctFix], lmAssets := [], createAsset := fun _ => .success (some 5) }

/-- A concrete Up category. -/
def catFix : UpCategory := { id := "up-c1", name := some "Food", parentId := none }

/-- A category sync environment whose single category matches an existing
Lunch Money category by name (so no create call is ever needed). -/
def catEnvFix : CatEnv :=
  { upCategories := [catFix]
    lmCategories := [{ id := some 9, name := some "Food" }]
    createCategory := fun _ => .failure "never" }

/-- A concrete webhook environment with a deterministic stand-in digest
function. -/
def webhookEnvFix : WebhookEnv :=
  { secret := "sek"
    hmacHex := fun sec b => sec ++ "|" ++ b
    parse := fun _ => some { eventType := "PING", transactionId := none }
    sendOk := true }

/-- A transaction whose amount value is a non-numeric string. -/
def txBadAmount : UpTransaction :=
  { id := some "txn-bad"
    attributes :=
      { amount := some (.obj (some (.pyStr "abc")) (some "AUD"))
        description := some "Weird"
        message := none
        settledAt := none
        createdAt := some "2024-01-06T10:00:00+10:00"
        roundUp := none }
    relationships := { account := some "acct-1", category := some "cat-1" } }

/-! ## Converter lemmas -/

theorem applyAccountMapping_fields (m : String → Option Int) (a : Option String)
    (r : LMRecord) :
    ((applyAccountMapping m a r).1.payee = r.payee) ∧
    ((applyAccountMapping m a r).1.amount = r.amount) ∧
    ((applyAccountMapping m a r).1.notes = r.notes) ∧
    ((applyAccountMapping m a r).1.date = r.date) ∧
    ((applyAccountMapping m a r).1.external_id = r.external_id) ∧
    ((applyAccountMapping m a r).1.currency = r.currency) ∧
    ((applyAccountMapping m a r).1.status = r.status) ∧
    ((applyAccountMapping m a r).1.category_id = r.category_id) := by
  rcases a with _ | aid
  · simp [applyAccountMapping]
  · by_cases h : aid.isEmpty = true <;>
      simp only [applyAccountMapping, h, if_true, if_false] <;>
      cases m aid <;> simp

theorem applyCategoryMapping_fields (m : String → Option Int) (c : Option String)
    (r : LMRecord) :
    ((applyCategoryMapping m c r).1.payee = r.payee) ∧
    ((applyCategoryMapping m c r).1.amount = r.amount) ∧
    ((applyCategoryMapping m c r).1.notes = r.notes) ∧
    ((applyCategoryMapping m c r).1.date = r.date) ∧
    ((applyCategoryMapping m c r).1.external_id = r.external_id) ∧
    ((applyCategoryMapping m c r).1.currency = r.currency) ∧
    ((applyCategoryMapping m c r).1.status = r.status) ∧
    ((applyCategoryMapping m c r).1.asset_id = r.asset_id) := by
  rcases c with _ | cid
  · simp [applyCategoryMapping]
  · by_cases h : cid.isEmpty = true <;>
      simp only [applyCategoryMapping, h, if_true, if_false] <;>
      cases m cid <;> simp

/-- The parent record the converter emits, whatever the round-up branch
does: the base record with both mapping applications. -/
theorem convert_mainRecord (A C : String → Option Int) (now : String)
    (tx : UpTransaction) :
    (convert_to_lunchmoney_format A C now tx).result.mainRecord =
      (applyCategoryMapping C tx.relationships.category
        (applyAccountMapping A tx.relationships.account (baseRecordOf now tx)).1).1 := by
  obtain ⟨tid, ⟨amt, desc, msg, stl, crt, rUp⟩, rels⟩ := tx
  unfold convert_to_lunchmoney_format
  dsimp only
  rcases rUp with _ | ⟨_ | av⟩ <;> try rfl
  dsimp only
  split
  · split <;> rfl
  · rfl

/-- The converter's warning list, whatever the round-up branch does. -/
theorem convert_warnings (A C : String → Option Int) (now : String)
    (tx : UpTransaction) :
    (convert_to_lunchmoney_format A C now tx).warnings =
      (applyAccountMapping A tx.relationships.account (baseRecordOf now tx)).2 ++
      (applyCategoryMapping C tx.relationships.category
        (applyAccountMapping A tx.relationships.account (baseRecordOf now tx)).1).2 := by
  obtain ⟨tid, ⟨amt, desc, msg, stl, crt, rUp⟩, rels⟩ := tx
  unfold convert_to_lunchmoney_format
  dsimp only
  rcases rUp with _ | ⟨_ | av⟩ <;> try rfl
  dsimp only
  split
  · split <;> rfl
  · rfl

theorem stripZeros_neg : ∀ (e : Nat) (m : Int), m < 0 → (stripZeros m e).1 < 0 := by
  intro e
  induction e with
  | zero => intro m h; simpa [stripZeros] using h
  | succ e ih =>
    intro m h
    unfold stripZeros
    split
    · exact ih _ (by omega)
    · simpa using h

/-- A negative decimal renders with a leading minus sign. -/
theorem decStr_neg (m : Int) (e : Nat) (h : m < 0) : ∃ rest, decStr m e = "-" ++ rest := by
  have hs := stripZeros_neg e m h
  unfold decStr
  dsimp only
  rw [if_pos hs]
  split
  · exact ⟨_, String.append_assoc _ _ _⟩
  · exact ⟨toString ((stripZeros m e).1.natAbs / 10 ^ (stripZeros m e).2) ++ "." ++
      padZeros (toString ((stripZeros m e).1.natAbs % 10 ^ (stripZeros m e).2)) (stripZeros m e).2,
      by simp [String.append_assoc]⟩

theorem applyAccountMapping_miss (m : String → Option Int) (aid : String) (r : LMRecord)
    (h1 : aid.isEmpty = false) (h2 : m aid = none) :
    applyAccountMapping m (some aid) r = (r, [ConvWarning.noAssetMapping aid]) := by
  simp [applyAccountMapping, h1, h2]

theorem applyCategoryMapping_miss (m : String → Option Int) (cid : String) (r : LMRecord)
    (h1 : cid.isEmpty = false) (h2 : m cid = none) :
    applyCategoryMapping m (some cid) r = (r, [ConvWarning.noCategoryMapping cid]) := by
  simp [applyCategoryMapping, h1, h2]

theorem convMain_payee (A C : String → Option Int) (now : String) (tx : UpTransaction) :
    (convMain A C now tx).payee = (baseRecordOf now tx).payee := by
  unfold convMain
  rw [(applyCategoryMapping_fields C tx.relationships.category _).1,
    (applyAccountMapping_fields A tx.relationships.account _).1]

theorem convMain_amount (A C : String → Option Int) (now : String) (tx : UpTransaction) :
    (convMain A C now tx).amount = (baseRecordOf now tx).amount := by
  unfold convMain
  rw [(applyCategoryMapping_fields C tx.relationships.category _).2.1,
    (applyAccountMapping_fields A tx.relationships.account _).2.1]

theorem convMain_date (A C : String → Option Int) (now : String) (tx : UpTransaction) :
    (convMain A C now tx).date = (baseRecordOf now tx).date := by
  unfold convMain
  rw [(applyCategoryMapping_fields C tx.relationships.category _).2.2.2.1,
    (applyAccountMapping_fields A tx.relationships.account _).2.2.2.1]

theorem convMain_external_id (A C : String → Option Int) (now : String) (tx : UpTransaction) :
    (convMain A C now tx).external_id = tx.id := by
  unfold convMain
  rw [(applyCategoryMapping_fields C tx.relationships.category _).2.2.2.2.1,
    (applyAccountMapping_fields A tx.relationships.account _).2.2.2.2.1]
  rfl

theorem convMain_currency (A C : String → Option Int) (now : String) (tx : UpTransaction) :
    (convMain A C now tx).currency = (baseRecordOf now tx).currency := by
  unfold convMain
  rw [(applyCategoryMapping_fields C tx.relationships.category _).2.2.2.2.2.1,
    (applyAccountMapping_fields A tx.relationships.account _).2.2.2.2.2.1]

/-- Full behaviour of the converter's round-up branch, phrased through
`roundupValue`. -/
theorem convert_result_spec (A C : String → Option Int) (now : String) (tx : UpTransaction) :
    (convert_to_lunchmoney_format A C now tx).result =
      match roundupValue tx.attributes with
      | some me =>
        if me.1 ≠ 0 then
          ConvResult.pair (convMain A C now tx) (convChild A C now tx me.1 me.2)
        else ConvResult.single (convMain A C now tx)
      | none => ConvResult.single (convMain A C now tx) := by
  obtain ⟨tid, ⟨amt, desc, msg, stl, crt, rUp⟩, rels⟩ := tx
  unfold convert_to_lunchmoney_format roundupValue convMain convChild
  dsimp only
  rcases rUp with _ | ⟨_ | av⟩ <;> try rfl
  dsimp only
  by_cases htr : av.truthy = true <;> simp only [htr, if_true, if_false, Bool.false_eq_true]
  split <;> rfl

/-! ## Claim theorems: the transaction converter -/

/-- Claim C3: for every source transaction whose amount is a numeric
`{value, currencyCode}` object, the converted record's amount equals
`str(float(value))` (modelled by `decStr`) with the sign preserved; for a
non-numeric or absent amount value the amount is `"0.0"` (and the
conversion, being a total function, raises no error). -/
theorem claim_C3_amount_conversion (A C : String → Option Int) (now : String)
    (tx : UpTransaction) :
    (∀ (v : PyVal) (c : Option String) (m : Int) (e : Nat),
        tx.attributes.amount = some (.obj (some v) c) →
        pyFloat v = some (m, e) →
        (convert_to_lunchmoney_format A C now tx).result.mainRecord.amount = decStr m e ∧
          (m < 0 →
            ∃ rest,
              (convert_to_lunchmoney_format A C now tx).result.mainRecord.amount =
                "-" ++ rest)) ∧
    (amountNonNumeric tx = true →
      (convert_to_lunchmoney_format A C now tx).result.mainRecord.amount = "0.0") := by
  have hmain : (convert_to_lunchmoney_format A C now tx).result.mainRecord =
      convMain A C now tx := by
    rw [convert_mainRecord]; rfl
  constructor
  · intro v c m e h1 h2
    have hamt : (convert_to_lunchmoney_format A C now tx).result.mainRecord.amount =
        decStr m e := by
      rw [hmain, convMain_amount]
      unfold baseRecordOf
      dsimp only
      rw [h1]
      simp only [amountValueOf, AmountVal.valueScalar, Option.getD_some, h2]
    exact ⟨hamt, fun hm => by rw [hamt]; exact decStr_neg m e hm⟩
  · intro h
    rw [hmain, convMain_amount]
    unfold baseRecordOf
    dsimp only
    unfold amountNonNumeric at h
    rcases htx : tx.attributes.amount with _ | (⟨_ | vv, cc⟩ | vv)
    · decide
    · simp only [amountValueOf, AmountVal.valueScalar, Option.getD_none]
      decide
    · rw [htx] at h
      simp only [Option.isNone_iff_eq_none] at h
      simp only [amountValueOf, AmountVal.valueScalar, Option.getD_some, h]
      decide
    · rw [htx] at h
      simp only [Option.isNone_iff_eq_none] at h
      simp only [amountValueOf, AmountVal.valueScalar, h]
      decide

/-- Witness for C3 at the spec's scenario inputs: `"-25.50"` converts to
`str(float("-25.50"))` and a non-numeric amount converts to `"0.0"`. -/
theorem claim_C3_amount_conversion_witness :
    (convert_to_lunchmoney_format mapNone mapNone now0 txPlain).result.mainRecord.amount =
      decStr (-2550) 2 ∧
    (convert_to_lunchmoney_format mapNone mapNone now0 txBadAmount).result.mainRecord.amount =
      "0.0" :=
  ⟨((claim_C3_amount_conversion mapNone mapNone now0 txPlain).1
      (.pyStr "-25.50") (some "AUD") (-2550) 2 rfl (by decide)).1,
    (claim_C3_amount_conversion mapNone mapNone now0 txBadAmount).2 (by decide)⟩

/-- Claim C2: a transaction carrying a non-zero round-up sub-amount converts
to exactly two records, parent first, the second with payee `"Round Up"`,
notes `"Round up for: {payee}"`, external id `"{parent_id}-roundup"`, and
the parent's date, currency, and asset id; a zero, absent, or unparseable
round-up (unparseable values default to zero) yields exactly one
record. -/
theorem claim_C2_roundup_pair (A C : String → Option Int) (now : String)
    (tx : UpTransaction) (tid : String) (hid : tx.id = some tid) :
    (∀ (m : Int) (e : Nat), roundupValue tx.attributes = some (m, e) → m ≠ 0 →
        ∃ p r, (convert_to_lunchmoney_format A C now tx).result = ConvResult.pair p r ∧
          r.payee = "Round Up" ∧
          r.notes = "Round up for: " ++ p.payee ∧
          r.external_id = some (tid ++ "-roundup") ∧
          p.external_id = some tid ∧
          r.date = p.date ∧
          r.currency = p.currency ∧
          r.asset_id = p.asset_id) ∧
    ((roundupValue tx.attributes = none ∨ ∃ e, roundupValue tx.attributes = some (0, e)) →
      ∃ t, (convert_to_lunchmoney_format A C now tx).result = ConvResult.single t) := by
  constructor
  · intro m e hrv hm
    refine ⟨convMain A C now tx, convChild A C now tx m e, ?_, rfl, ?_, ?_, ?_, ?_, ?_, rfl⟩
    · rw [convert_result_spec, hrv]
      simp [hm]
    · show "Round up for: " ++ (baseRecordOf now tx).payee =
        "Round up for: " ++ (convMain A C now tx).payee
      rw [convMain_payee]
    · show some (pyFString tx.id ++ "-roundup") = some (tid ++ "-roundup")
      rw [hid]
      rfl
    · rw [convMain_external_id, hid]
    · show (baseRecordOf now tx).date = (convMain A C now tx).date
      rw [convMain_date]
    · show (baseRecordOf now tx).currency = (convMain A C now tx).currency
      rw [convMain_currency]
  · intro h
    refine ⟨convMain A C now tx, ?_⟩
    rw [convert_result_spec]
    rcases h with h | ⟨e, h⟩
    · rw [h]
    · rw [h]
      simp

/-- Witness for C2 at the spec's round-up scenario (`"-0.50"` on parent
`txn-with-roundup`) and at a round-up-free transaction. -/
theorem claim_C2_roundup_pair_witness :
    (∃ p r,
      (convert_to_lunchmoney_format mapA33 mapC7 now0 txRoundup).result = ConvResult.pair p r ∧
        r.payee = "Round Up" ∧
        r.notes = "Round up for: " ++ p.payee ∧
        r.external_id = some ("txn-with-roundup" ++ "-roundup") ∧
        p.external_id = some "txn-with-roundup" ∧
        r.date = p.date ∧
        r.currency = p.currency ∧
        r.asset_id = p.asset_id) ∧
    (∃ t,
      (convert_to_lunchmoney_format mapA33 mapC7 now0 txPlain).result = ConvResult.single t) :=
  ⟨(claim_C2_roundup_pair mapA33 mapC7 now0 txRoundup "txn-with-roundup" rfl).1
      (-50) 2 (by decide) (by decide),
    (claim_C2_roundup_pair mapA33 mapC7 now0 txPlain "txn-456" rfl).2 (Or.inl rfl)⟩


/-- Claim C5: a source transaction whose account (or category) relationship
id has no record in the mapping store converts successfully with the
`asset_id` (or `category_id`) field omitted from every output record and a
warning logged — never a hard failure (the converter is a total
function). -/
theorem claim_C5_missing_mapping (A C : String → Option Int) (now : String)
    (tx : UpTransaction) :
    (∀ aid, tx.relationships.account = some aid → aid.isEmpty = false → A aid = none →
        (∀ rec ∈ (convert_to_lunchmoney_format A C now tx).result.toList,
            rec.asset_id = none) ∧
          ConvWarning.noAssetMapping aid ∈
            (convert_to_lunchmoney_format A C now tx).warnings) ∧
    (∀ cid, tx.relationships.category = some cid → cid.isEmpty = false → C cid = none →
        (∀ rec ∈ (convert_to_lunchmoney_format A C now tx).result.toList,
            rec.category_id = none) ∧
          ConvWarning.noCategoryMapping cid ∈
            (convert_to_lunchmoney_format A C now tx).warnings) := by
  constructor
  · intro aid h1 h2 h3
    have hA : applyAccountMapping A tx.relationships.account (baseRecordOf now tx) =
        (baseRecordOf now tx, [ConvWarning.noAssetMapping aid]) := by
      rw [h1]
      exact applyAccountMapping_miss A aid _ h2 h3
    have hmain : (convMain A C now tx).asset_id = none := by
      unfold convMain
      rw [(applyCategoryMapping_fields C tx.relationships.category _).2.2.2.2.2.2.2, hA]
      rfl
    constructor
    · intro rec hrec
      rw [convert_result_spec] at hrec
      rcases hrv : roundupValue tx.attributes with _ | ⟨m, e⟩ <;>
        (rw [hrv] at hrec; dsimp only at hrec)
      · simp only [ConvResult.toList, List.mem_singleton] at hrec
        subst hrec
        exact hmain
      · by_cases hm : m ≠ 0
        · rw [if_pos hm] at hrec
          simp only [ConvResult.toList, List.mem_cons, List.not_mem_nil, or_false] at hrec
          rcases hrec with hrec | hrec <;> subst hrec
          · exact hmain
          · exact hmain
        · rw [if_neg hm] at hrec
          simp only [ConvResult.toList, List.mem_singleton] at hrec
          subst hrec
          exact hmain
    · rw [convert_warnings, hA]
      simp
  · intro cid h1 h2 h3
    have hC : ∀ r, applyCategoryMapping C tx.relationships.category r =
        (r, [ConvWarning.noCategoryMapping cid]) := by
      intro r
      rw [h1]
      exact applyCategoryMapping_miss C cid _ h2 h3
    have hmain : (convMain A C now tx).category_id = none := by
      unfold convMain
      rw [hC]
      exact (applyAccountMapping_fields A tx.relationships.account _).2.2.2.2.2.2.2
    constructor
    · intro rec hrec
      rw [convert_result_spec] at hrec
      rcases hrv : roundupValue tx.attributes with _ | ⟨m, e⟩ <;>
        (rw [hrv] at hrec; dsimp only at hrec)
      · simp only [ConvResult.toList, List.mem_singleton] at hrec
        subst hrec
        exact hmain
      · by_cases hm : m ≠ 0
        · rw [if_pos hm] at hrec
          simp only [ConvResult.toList, List.mem_cons, List.not_mem_nil, or_false] at hrec
          rcases hrec with hrec | hrec <;> subst hrec
          · exact hmain
          · rfl
        · rw [if_neg hm] at hrec
          simp only [ConvResult.toList, List.mem_singleton] at hrec
          subst hrec
          exact hmain
    · rw [convert_warnings, hC]
      simp

/-- Witness for C5: under empty mapping stores, `txRoundup` (which carries
both an account and a category relationship) converts with both warnings
logged and no `asset_id` on the parent record. -/
theorem claim_C5_missing_mapping_witness :
    ConvWarning.noAssetMapping "acct-1" ∈
        (convert_to_lunchmoney_format mapNone mapNone now0 txRoundup).warnings ∧
      ConvWarning.noCategoryMapping "cat-1" ∈
        (convert_to_lunchmoney_format mapNone mapNone now0 txRoundup).warnings ∧
      (convert_to_lunchmoney_format mapNone mapNone now0 txRoundup).result.mainRecord.asset_id =
        none :=
  ⟨((claim_C5_missing_mapping mapNone mapNone now0 txRoundup).1 "acct-1" rfl rfl rfl).2,
    ((claim_C5_missing_mapping mapNone mapNone now0 txRoundup).2 "cat-1" rfl rfl rfl).2,
    ((claim_C5_missing_mapping mapNone mapNone now0 txRoundup).1 "acct-1" rfl rfl rfl).1
      _ (by decide)⟩

/-- Claim C10: whenever the converter produces a parent/round-up pair, the
round-up child carries no `category_id` (only `asset_id` is copied from
the parent), so the round-up always syncs uncategorised. -/
theorem claim_C10_roundup_uncategorised (A C : String → Option Int) (now : String)
    (tx : UpTransaction) (p r : LMRecord)
    (h : (convert_to_lunchmoney_format A C now tx).result = ConvResult.pair p r) :
    r.category_id = none ∧ r.asset_id = p.asset_id := by
  rw [convert_result_spec] at h
  rcases hrv : roundupValue tx.attributes with _ | ⟨m, e⟩ <;>
    (rw [hrv] at h; dsimp only at h)
  · exact absurd h (by simp)
  · by_cases hm : m ≠ 0
    · rw [if_pos hm] at h
      injection h with h1 h2
      subst h1
      subst h2
      exact ⟨rfl, rfl⟩
    · rw [if_neg hm] at h
      exact absurd h (by simp)

/-- Witness for C10 at a conversion whose parent record does carry a
`category_id`. -/
theorem claim_C10_roundup_uncategorised_witness :
    (convert_to_lunchmoney_format mapA33 mapC7 now0 txRoundup).result =
        ConvResult.pair lmParentFix lmRoundupFix ∧
      lmRoundupFix.category_id = none ∧
      lmParentFix.category_id = some 7 ∧
      lmRoundupFix.asset_id = lmParentFix.asset_id :=
  ⟨by decide,
    (claim_C10_roundup_uncategorised mapA33 mapC7 now0 txRoundup lmParentFix lmRoundupFix
      (by decide)).1,
    rfl,
    (claim_C10_roundup_uncategorised mapA33 mapC7 now0 txRoundup lmParentFix lmRoundupFix
      (by decide)).2⟩

/-! ## Claim theorems: the event processor -/

/-- Claim C1 (evaluation at the failing input): when the Up API fetch for a
queued `TRANSACTION_CREATED` event fails, `process_transaction_event`
logs the failure and returns normally, and the surrounding `handler`
completes with `ok` — no exception propagates, so SQS treats the message
as successfully processed and does not redeliver it.  This contradicts
the claim (and the spec's `UpstreamFetchFailure` design) that the error
must propagate for redelivery. -/
theorem claim_C1_fetch_failure_is_swallowed :
    process_transaction_event envFetchFail wdFetchFail =
        { attempts := [], logs := [ProcLog.fetchFailed "txn-1"], result := Except.ok () } ∧
      (processor_handler envFetchFail [wdFetchFail]).result = Except.ok () :=
  ⟨rfl, rfl⟩

/-- Claim C7: submission of a converted parent/round-up pair is sequential
and fail-fast: if the parent submission raises, the round-up record is
never submitted (the only attempted submission is the parent) and the
error propagates out of the processor handler, failing the whole
message. -/
theorem claim_C7_parent_failure_failfast (env : ProcEnv) (wd : WebhookMsg)
    (tid : String) (tr : UpTransaction) (p r : LMRecord) (emsg : String)
    (het : wd.eventType = "TRANSACTION_CREATED" ∨ wd.eventType = "TRANSACTION_UPDATED")
    (htid : wd.transactionId = some tid) (hemp : tid.isEmpty = false)
    (hfetch : env.fetchUp tid = some tr)
    (hconv : (convert_to_lunchmoney_format env.acctMap env.catMap env.now tr).result =
      ConvResult.pair p r)
    (hsync : env.syncLM p = Except.error emsg) :
    process_transaction_event env wd =
        { attempts := [p], logs := [], result := Except.error emsg } ∧
      (processor_handler env [wd]).result = Except.error emsg := by
  have hp : process_transaction_event env wd =
      { attempts := [p], logs := [], result := Except.error emsg } := by
    unfold process_transaction_event
    rw [htid]
    dsimp only
    rw [if_neg (by simp [hemp])]
    rw [hfetch]
    dsimp only
    rw [hconv]
    show ({ attempts := (syncSeq env.syncLM (ConvResult.pair p r).toList).1
            logs := []
            result := (syncSeq env.syncLM (ConvResult.pair p r).toList).2 } : ProcOut) = _
    show ({ attempts := (syncSeq env.syncLM [p, r]).1
            logs := []
            result := (syncSeq env.syncLM [p, r]).2 } : ProcOut) = _
    unfold syncSeq
    rw [hsync]
  refine ⟨hp, ?_⟩
  unfold processor_handler
  rw [if_pos (by rcases het with het | het <;> simp [het])]
  rw [hp]

/-- Witness for C7: with `txRoundup` fetched and the parent submission
failing, only the parent is attempted and the handler fails. -/
theorem claim_C7_parent_failure_failfast_witness :
    process_transaction_event envParentFail wdRoundup =
        { attempts := [lmParentFix], logs := [], result := Except.error "boom" } ∧
      (processor_handler envParentFail [wdRoundup]).result = Except.error "boom" :=
  claim_C7_parent_failure_failfast envParentFail wdRoundup "txn-with-roundup" txRoundup
    lmParentFix lmRoundupFix "boom" (Or.inl rfl) rfl rfl (by decide) (by decide) rfl

/-! ## Claim theorems: the webhook ingestor -/

/-- Claim C8: an inbound webhook whose signature header is missing (or
falsy) or whose hex HMAC-SHA256 digest over the raw body does not match
the one computed with the shared secret is rejected with an
authentication failure (403) and nothing is enqueued; conversely, a
message reaches the work queue only when the presented signature equals
the expected digest. -/
theorem claim_C8_signature_gate (env : WebhookEnv) (signature : Option String)
    (body : String) :
    ((signature = none ∨ signature = some "" ∨
        (∃ s, signature = some s ∧ s ≠ env.hmacHex env.secret body)) →
      (webhook_handler env signature body).statusCode = 403 ∧
        (webhook_handler env signature body).enqueued = []) ∧
    ((webhook_handler env signature body).enqueued ≠ [] →
      ∃ s, signature = some s ∧ s.isEmpty = false ∧ s = env.hmacHex env.secret body) := by
  constructor
  · intro h
    rcases h with h | h | ⟨s, hs, hne⟩
    · subst h
      exact ⟨rfl, rfl⟩
    · subst h
      exact ⟨rfl, rfl⟩
    · subst hs
      unfold webhook_handler
      dsimp only
      by_cases he : s.isEmpty = true
      · rw [if_pos he]
        exact ⟨rfl, rfl⟩
      · rw [if_neg he, if_pos hne]
        exact ⟨rfl, rfl⟩
  · intro h
    unfold webhook_handler at h
    rcases signature with _ | s
    · exact absurd rfl h
    · dsimp only at h
      by_cases he : s.isEmpty = true
      · rw [if_pos he] at h
        exact absurd rfl h
      · rw [if_neg he] at h
        by_cases hne : s ≠ env.hmacHex env.secret body
        · rw [if_pos hne] at h
          exact absurd rfl h
        · push_neg at hne
          exact ⟨s, rfl, by simpa using he, hne⟩

/-- Witness for C8: a tampered signature is rejected with 403 and nothing
enqueued; the accepted-and-enqueued path exhibits the matching
signature. -/
theorem claim_C8_signature_gate_witness :
    ((webhook_handler webhookEnvFix (some "bad") "hello").statusCode = 403 ∧
      (webhook_handler webhookEnvFix (some "bad") "hello").enqueued = []) ∧
    (∃ s, (some "sek|hello" : Option String) = some s ∧ s.isEmpty = false ∧
      s = webhookEnvFix.hmacHex webhookEnvFix.secret "hello") :=
  ⟨(claim_C8_signature_gate webhookEnvFix (some "bad") "hello").1
      (Or.inr (Or.inr ⟨"bad", rfl, by decide⟩)),
    (claim_C8_signature_gate webhookEnvFix (some "sek|hello") "hello").2 (by decide)⟩

/-! ## Sync orchestrator lemmas -/

theorem tableGet_put_self (t : MapTable) (k v : String) :
    tableGet (tablePut t k v) k = some v := by
  simp [tableGet, tablePut, List.find?]

theorem tableGet_put_isSome (t : MapTable) (k k' v : String)
    (h : (tableGet t k).isSome = true) :
    (tableGet (tablePut t k' v) k).isSome = true := by
  by_cases hk : (k' == k) = true
  · simp [tableGet, tablePut, List.find?, hk]
  · simp only [tableGet, tablePut, List.find?, hk] at h ⊢
    exact h

theorem account_step_synced_le (env : AcctEnv) (st : MapTable × Nat × Nat)
    (a : UpAccount) : (account_sync_step env st a).2.1 ≤ st.2.1 + 1 := by
  unfold account_sync_step
  dsimp only
  repeat' split
  all_goals dsimp only
  all_goals omega

theorem account_step_table_mono (env : AcctEnv) (st : MapTable × Nat × Nat)
    (a : UpAccount) (k : String) (h : (tableGet st.1 k).isSome = true) :
    (tableGet (account_sync_step env st a).1 k).isSome = true := by
  unfold account_sync_step
  dsimp only
  repeat' split
  all_goals try exact h
  exact tableGet_put_isSome _ _ _ _ h

theorem account_step_full (env : AcctEnv) (t : MapTable) (s c : Nat) (a : UpAccount)
    (h : (account_sync_step env (t, s, c) a).2.1 = s + 1) :
    (balanceOf a).isSome = true ∧
      (tableGet (account_sync_step env (t, s, c) a).1 a.id).isSome = true := by
  unfold account_sync_step at h ⊢
  dsimp only at h ⊢
  rcases hbal : balanceOf a with _ | bal <;> rw [hbal] at h <;> dsimp only at h ⊢
  · exact absurd h (by omega)
  · refine ⟨rfl, ?_⟩
    rcases hget : tableGet t a.id with _ | x <;> rw [hget] at h <;> dsimp only at h ⊢
    · rcases hres : (create_or_find_lunchmoney_asset env.createAsset env.lmAssets
          a.displayName a.accountType bal).1 with e | (_ | lmid) <;> rw [hres] at h <;>
        dsimp only at h ⊢
      · exact absurd h (by omega)
      · exact absurd h (by omega)
      · by_cases hz : (lmid == 0) = true
        · rw [if_pos hz] at h
          dsimp only at h
          exact absurd h (by omega)
        · rw [if_neg hz]
          rw [tableGet_put_self]
          rfl
    · rw [hget]
      rfl

theorem account_foldl_synced_le (env : AcctEnv) :
    ∀ (l : List UpAccount) (st : MapTable × Nat × Nat),
      (l.foldl (account_sync_step env) st).2.1 ≤ st.2.1 + l.length := by
  intro l
  induction l with
  | nil => intro st; simp
  | cons a l ih =>
    intro st
    have h1 := ih (account_sync_step env st a)
    have h2 := account_step_synced_le env st a
    simp only [List.foldl_cons, List.length_cons]
    omega

theorem account_foldl_table_mono (env : AcctEnv) :
    ∀ (l : List UpAccount) (st : MapTable × Nat × Nat) (k : String),
      (tableGet st.1 k).isSome = true →
      (tableGet (l.foldl (account_sync_step env) st).1 k).isSome = true := by
  intro l
  induction l with
  | nil => intro st k h; simpa using h
  | cons a l ih =>
    intro st k h
    simp only [List.foldl_cons]
    exact ih _ k (account_step_table_mono env st a k h)

theorem account_foldl_full (env : AcctEnv) :
    ∀ (l : List UpAccount) (t : MapTable) (s c : Nat),
      (l.foldl (account_sync_step env) (t, s, c)).2.1 = s + l.length →
      ∀ a ∈ l, (balanceOf a).isSome = true ∧
        (tableGet (l.foldl (account_sync_step env) (t, s, c)).1 a.id).isSome = true := by
  intro l
  induction l with
  | nil => intro t s c h a ha; exact absurd ha (by simp)
  | cons a l ih =>
    intro t s c h b hb
    simp only [List.foldl_cons, List.length_cons] at h ⊢
    have hle1 := account_foldl_synced_le env l (account_sync_step env (t, s, c) a)
    have hle2 := account_step_synced_le env (t, s, c) a
    dsimp only at hle2
    have hs1 : (account_sync_step env (t, s, c) a).2.1 = s + 1 := by omega
    have hchar := account_step_full env t s c a hs1
    have heta : account_sync_step env (t, s, c) a =
        ((account_sync_step env (t, s, c) a).1, s + 1,
          (account_sync_step env (t, s, c) a).2.2) := by
      rw [← hs1]
    rcases List.mem_cons.mp hb with hb | hb
    · subst hb
      exact ⟨hchar.1, account_foldl_table_mono env l _ b.id hchar.2⟩
    · have h' : (l.foldl (account_sync_step env)
          ((account_sync_step env (t, s, c) a).1, s + 1,
            (account_sync_step env (t, s, c) a).2.2)).2.1 = (s + 1) + l.length := by
        rw [← heta]
        omega
      have := ih (account_sync_step env (t, s, c) a).1 (s + 1)
        (account_sync_step env (t, s, c) a).2.2 h' b hb
      rwa [← heta] at this

theorem account_foldl_skip (env : AcctEnv) :
    ∀ (l : List UpAccount) (t : MapTable) (s c : Nat),
      (∀ a ∈ l, (balanceOf a).isSome = true ∧ (tableGet t a.id).isSome = true) →
      l.foldl (account_sync_step env) (t, s, c) = (t, s + l.length, c) := by
  intro l
  induction l with
  | nil => intro t s c h; simp
  | cons a l ih =>
    intro t s c h
    obtain ⟨hb, hg⟩ := h a (List.mem_cons_self a l)
    obtain ⟨bal, hbal⟩ := Option.isSome_iff_exists.mp hb
    obtain ⟨x, hx⟩ := Option.isSome_iff_exists.mp hg
    have hstep : account_sync_step env (t, s, c) a = (t, s + 1, c) := by
      unfold account_sync_step
      dsimp only
      rw [hbal, hx]
    rw [List.foldl_cons, hstep,
      ih t (s + 1) c (fun b hbm => h b (List.mem_cons_of_mem a hbm))]
    have harith : s + 1 + l.length = s + (a :: l).length := by
      simp only [List.length_cons]
      omega
    rw [harith]

theorem category_step_synced_le (env : CatEnv) (st : MapTable × Nat × Nat)
    (c : UpCategory) : (category_sync_step env st c).2.1 ≤ st.2.1 + 1 := by
  unfold category_sync_step
  dsimp only
  repeat' split
  all_goals dsimp only
  all_goals omega

theorem category_step_table_mono (env : CatEnv) (st : MapTable × Nat × Nat)
    (c : UpCategory) (k : String) (h : (tableGet st.1 k).isSome = true) :
    (tableGet (category_sync_step env st c).1 k).isSome = true := by
  unfold category_sync_step
  dsimp only
  repeat' split
  all_goals try exact h
  exact tableGet_put_isSome _ _ _ _ h

theorem category_step_full (env : CatEnv) (t : MapTable) (s c : Nat) (cat : UpCategory)
    (h : (category_sync_step env (t, s, c) cat).2.1 = s + 1) :
    (tableGet (category_sync_step env (t, s, c) cat).1 cat.id).isSome = true := by
  unfold category_sync_step at h ⊢
  dsimp only at h ⊢
  rcases hget : tableGet t cat.id with _ | x <;> rw [hget] at h <;> dsimp only at h ⊢
  · rcases hres : (create_or_find_lunchmoney_category env.createCategory env.lmCategories
        cat.name cat.parentId).1 with e | (_ | lmid) <;> rw [hres] at h <;>
      dsimp only at h ⊢
    · exact absurd h (by omega)
    · exact absurd h (by omega)
    · by_cases hz : (lmid == 0) = true
      · rw [if_pos hz] at h
        dsimp only at h
        exact absurd h (by omega)
      · rw [if_neg hz]
        rw [tableGet_put_self]
        rfl
  · rw [hget]
    rfl

theorem category_foldl_synced_le (env : CatEnv) :
    ∀ (l : List UpCategory) (st : MapTable × Nat × Nat),
      (l.foldl (category_sync_step env) st).2.1 ≤ st.2.1 + l.length := by
  intro l
  induction l with
  | nil => intro st; simp
  | cons a l ih =>
    intro st
    have h1 := ih (category_sync_step env st a)
    have h2 := category_step_synced_le env st a
    simp only [List.foldl_cons, List.length_cons]
    omega

theorem category_foldl_table_mono (env : CatEnv) :
    ∀ (l : List UpCategory) (st : MapTable × Nat × Nat) (k : String),
      (tableGet st.1 k).isSome = true →
      (tableGet (l.foldl (category_sync_step env) st).1 k).isSome = true := by
  intro l
  induction l with
  | nil => intro st k h; simpa using h
  | cons a l ih =>
    intro st k h
    simp only [List.foldl_cons]
    exact ih _ k (category_step_table_mono env st a k h)

theorem category_foldl_full (env : CatEnv) :
    ∀ (l : List UpCategory) (t : MapTable) (s c : Nat),
      (l.foldl (category_sync_step env) (t, s, c)).2.1 = s + l.length →
      ∀ a ∈ l,
        (tableGet (l.foldl (category_sync_step env) (t, s, c)).1 a.id).isSome = true := by
  intro l
  induction l with
  | nil => intro t s c h a ha; exact absurd ha (by simp)
  | cons a l ih =>
    intro t s c h b hb
    simp only [List.foldl_cons, List.length_cons] at h ⊢
    have hle1 := category_foldl_synced_le env l (category_sync_step env (t, s, c) a)
    have hle2 := category_step_synced_le env (t, s, c) a
    dsimp only at hle2
    have hs1 : (category_sync_step env (t, s, c) a).2.1 = s + 1 := by omega
    have hchar := category_step_full env t s c a hs1
    have heta : category_sync_step env (t, s, c) a =
        ((category_sync_step env (t, s, c) a).1, s + 1,
          (category_sync_step env (t, s, c) a).2.2) := by
      rw [← hs1]
    rcases List.mem_cons.mp hb with hb | hb
    · subst hb
      exact category_foldl_table_mono env l _ b.id hchar
    · have h' : (l.foldl (category_sync_step env)
          ((category_sync_step env (t, s, c) a).1, s + 1,
            (category_sync_step env (t, s, c) a).2.2)).2.1 = (s + 1) + l.length := by
        rw [← heta]
        omega
      have := ih (category_sync_step env (t, s, c) a).1 (s + 1)
        (category_sync_step env (t, s, c) a).2.2 h' b hb
      rwa [← heta] at this

theorem category_foldl_skip (env : CatEnv) :
    ∀ (l : List UpCategory) (t : MapTable) (s c : Nat),
      (∀ a ∈ l, (tableGet t a.id).isSome = true) →
      l.foldl (category_sync_step env) (t, s, c) = (t, s + l.length, c) := by
  intro l
  induction l with
  | nil => intro t s c h; simp
  | cons a l ih =>
    intro t s c h
    obtain ⟨x, hx⟩ := Option.isSome_iff_exists.mp (h a (List.mem_cons_self a l))
    have hstep : category_sync_step env (t, s, c) a = (t, s + 1, c) := by
      unfold category_sync_step
      dsimp only
      rw [hx]
    rw [List.foldl_cons, hstep,
      ih t (s + 1) c (fun b hbm => h b (List.mem_cons_of_mem a hbm))]
    have harith : s + 1 + l.length = s + (a :: l).length := by
      simp only [List.length_cons]
      omega
    rw [harith]

/-! ## Claim theorems: the sync orchestrators -/

/-- Claim C4: if a first run of a sync orchestrator (account or category)
completed successfully — every source entity was counted as synced — then
a second run against the unchanged source/target state returns the very
same mapping table (hence the same total mapping count), reports the same
synced count, and issues zero create calls: every entity hits the
existing-mapping skip branch. -/
theorem claim_C4_sync_idempotent (envA : AcctEnv) (envC : CatEnv) (tA tC : MapTable) :
    ((account_sync_handler envA tA).2.1 = envA.upAccounts.length →
      account_sync_handler envA (account_sync_handler envA tA).1 =
        ((account_sync_handler envA tA).1, (account_sync_handler envA tA).2.1, 0)) ∧
    ((category_sync_handler envC tC).2.1 = envC.upCategories.length →
      category_sync_handler envC (category_sync_handler envC tC).1 =
        ((category_sync_handler envC tC).1, (category_sync_handler envC tC).2.1, 0)) := by
  constructor
  · intro hfull
    unfold account_sync_handler at hfull ⊢
    have hall := account_foldl_full envA envA.upAccounts tA 0 0
      (by rw [Nat.zero_add]; exact hfull)
    have hskip := account_foldl_skip envA envA.upAccounts
      (envA.upAccounts.foldl (account_sync_step envA) (tA, 0, 0)).1 0 0 hall
    rw [hskip, hfull]
    rw [Nat.zero_add]
  · intro hfull
    unfold category_sync_handler at hfull ⊢
    have hall := category_foldl_full envC envC.upCategories tC 0 0
      (by rw [Nat.zero_add]; exact hfull)
    have hskip := category_foldl_skip envC envC.upCategories
      (envC.upCategories.foldl (category_sync_step envC) (tC, 0, 0)).1 0 0 hall
    rw [hskip, hfull]
    rw [Nat.zero_add]

/-- Witness for C4: concrete one-entity environments where the first run
syncs everything; the second run returns the same table, the same synced
count, and zero create calls. -/
theorem claim_C4_sync_idempotent_witness :
    account_sync_handler acctEnvFix (account_sync_handler acctEnvFix ([] : MapTable)).1 =
        ((account_sync_handler acctEnvFix ([] : MapTable)).1,
          (account_sync_handler acctEnvFix ([] : MapTable)).2.1, 0) ∧
      category_sync_handler catEnvFix (category_sync_handler catEnvFix ([] : MapTable)).1 =
        ((category_sync_handler catEnvFix ([] : MapTable)).1,
          (category_sync_handler catEnvFix ([] : MapTable)).2.1, 0) :=
  ⟨(claim_C4_sync_idempotent acctEnvFix catEnvFix ([] : MapTable) ([] : MapTable)).1
      (by decide),
    (claim_C4_sync_idempotent acctEnvFix catEnvFix ([] : MapTable) ([] : MapTable)).2
      (by decide)⟩

/-- Claim C6: when a resolution reaches the create step (no existing mapping
— so the orchestrator called the resolver — and no exact display-name
match among the existing target entities) and the target API's create
call returns a non-success response, `create_or_find_lunchmoney_asset` /
`create_or_find_lunchmoney_category` raises (returns `Except.error`,
after one create call) and never returns an id, so the caller cannot
proceed with a mapping. -/
theorem claim_C6_create_failure_propagates :
    (∀ (createResp : AssetPayload → CreateResp) (existing : List LMAsset)
        (name atype : Option String) (bal : Int × Nat) (msg : String),
      (∀ a ∈ existing, (a.name == name) = false) →
      createResp (mkAssetPayload name atype bal) = CreateResp.failure msg →
      create_or_find_lunchmoney_asset createResp existing name atype bal =
          (Except.error msg, 1) ∧
        ∀ i, (create_or_find_lunchmoney_asset createResp existing name atype bal).1 ≠
          Except.ok i) ∧
    (∀ (createResp : CatPayload → CreateResp) (existing : List LMCategory)
        (name parentId : Option String) (msg : String),
      (∀ c ∈ existing, (c.name == name) = false) →
      createResp { name := name, description := "Synced from Up Bank" } =
        CreateResp.failure msg →
      create_or_find_lunchmoney_category createResp existing name parentId =
          (Except.error msg, 1) ∧
        ∀ i, (create_or_find_lunchmoney_category createResp existing name parentId).1 ≠
          Except.ok i) := by
  constructor
  · intro createResp existing name atype bal msg hno hresp
    have hfind : existing.find? (fun a => a.name == name) = none :=
      List.find?_eq_none.mpr (fun a ha => by simp [hno a ha])
    have heq : create_or_find_lunchmoney_asset createResp existing name atype bal =
        (Except.error msg, 1) := by
      unfold create_or_find_lunchmoney_asset
      rw [hfind, hresp]
    refine ⟨heq, ?_⟩
    intro i
    rw [heq]
    simp
  · intro createResp existing name parentId msg hno hresp
    have hfind : existing.find? (fun c => c.name == name) = none :=
      List.find?_eq_none.mpr (fun c hc => by simp [hno c hc])
    have heq : create_or_find_lunchmoney_category createResp existing name parentId =
        (Except.error msg, 1) := by
      unfold create_or_find_lunchmoney_category
      rw [hfind, hresp]
    refine ⟨heq, ?_⟩
    intro i
    rw [heq]
    simp

/-- Witness for C6 at concrete inputs: one existing entity with a
different name and a failing create call. -/
theorem claim_C6_create_failure_propagates_witness :
    create_or_find_lunchmoney_asset (fun _ => CreateResp.failure "500")
        [{ id := some 5, name := some "Other" }] (some "Acct") none (0, 0) =
      (Except.error "500", 1) ∧
    create_or_find_lunchmoney_category (fun _ => CreateResp.failure "500")
        [{ id := some 9, name := some "Other" }] (some "Cat") none =
      (Except.error "500", 1) :=
  ⟨((claim_C6_create_failure_propagates).1 (fun _ => CreateResp.failure "500")
      [{ id := some 5, name := some "Other" }] (some "Acct") none (0, 0) "500"
      (by decide) rfl).1,
    ((claim_C6_create_failure_propagates).2 (fun _ => CreateResp.failure "500")
      [{ id := some 9, name := some "Other" }] (some "Cat") none "500"
      (by decide) rfl).1⟩

/-! ## DLQ redrive lemmas -/

/-- Full characterisation of the inner message loop when the batch fits
under the cap (which the outer loop's `min(10, max - redriven)` receive
size always guarantees, making the inner break unreachable). -/
theorem processBatch_no_break (f : SqsMsg → Bool) (maxM : Nat) :
    ∀ (l : List SqsMsg) (acc : RedriveAcc), acc.redriven + l.length ≤ maxM →
      processBatch f maxM acc l =
        { redriven := acc.redriven + l.countP f
          failed := acc.failed + l.countP (fun m => !f m)
          attempted := acc.attempted ++ l
          sent := acc.sent ++ l.filter f
          deleted := acc.deleted ++ l.filter f
          leftBehind := acc.leftBehind ++ l.filter (fun m => !f m) } := by
  intro l
  induction l with
  | nil =>
    intro acc h
    cases acc
    simp [processBatch]
  | cons m rest ih =>
    intro acc h
    simp only [List.length_cons] at h
    have hlt : ¬(acc.redriven ≥ maxM) := by omega
    unfold processBatch
    rw [if_neg hlt]
    by_cases hf : f m = true
    · rw [if_pos hf, ih _ (by dsimp only; omega)]
      simp [List.countP_cons, List.filter_cons, hf, List.append_assoc]
      omega
    · have hf0 : f m = false := by simpa using hf
      rw [if_neg hf, ih _ (by dsimp only; omega)]
      simp [List.countP_cons, List.filter_cons, hf0, List.append_assoc]
      omega

/-- Invariants of the redrive `while` loop, by fuel induction: the final
redriven count is `min maxM (countP sendOk ·)` over the initial count and
the pending messages, and the attempted messages form a prefix of the
pending list whose successful sends are exactly the deletions and whose
failures are exactly the failure count. -/
theorem redriveLoop_spec (f : SqsMsg → Bool) (maxM : Nat) :
    ∀ (fuel : Nat) (pending : List SqsMsg) (acc : RedriveAcc),
      pending.length ≤ fuel → acc.redriven ≤ maxM →
      (redriveLoop f maxM fuel acc pending).1.redriven =
          min maxM (acc.redriven + pending.countP f) ∧
      ∃ pre post, pending = pre ++ post ∧
        (redriveLoop f maxM fuel acc pending).1.attempted = acc.attempted ++ pre ∧
        (redriveLoop f maxM fuel acc pending).1.sent = acc.sent ++ pre.filter f ∧
        (redriveLoop f maxM fuel acc pending).1.deleted = acc.deleted ++ pre.filter f ∧
        (redriveLoop f maxM fuel acc pending).1.failed =
          acc.failed + pre.countP (fun m => !f m) := by
  intro fuel
  induction fuel with
  | zero =>
    intro pending acc hlen hle
    have hp : pending = [] := by
      cases pending with
      | nil => rfl
      | cons a l => simp at hlen
    subst hp
    simp only [redriveLoop]
    exact ⟨by simp; omega, [], [], by simp, by simp, by simp, by simp, by simp⟩
  | succ fuel ih =>
    intro pending acc hlen hle
    simp only [redriveLoop]
    by_cases h : acc.redriven < maxM
    · rw [if_pos h]
      by_cases hb : pending.take (min 10 (maxM - acc.redriven)) = []
      · rw [if_pos hb]
        have hk1 : 1 ≤ min 10 (maxM - acc.redriven) := by omega
        have hp : pending = [] := by
          rcases List.take_eq_nil_iff.mp hb with h0 | h0
          · omega
          · exact h0
        subst hp
        exact ⟨by simp; omega, [], [], by simp, by simp, by simp, by simp, by simp⟩
      · rw [if_neg hb]
        have hk1 : 1 ≤ min 10 (maxM - acc.redriven) := by omega
        have hpne : pending ≠ [] := by
          intro hp
          exact hb (by simp [hp])
        have hppos : 0 < pending.length := List.length_pos.mpr hpne
        have hlen' :
            (pending.drop (min 10 (maxM - acc.redriven))).length ≤ fuel := by
          simp only [List.length_drop]
          omega
        have htlen :
            (pending.take (min 10 (maxM - acc.redriven))).length ≤
              min 10 (maxM - acc.redriven) := by
          rw [List.length_take]
          omega
        have hnb : acc.redriven +
            (pending.take (min 10 (maxM - acc.redriven))).length ≤ maxM := by
          omega
        have hpb := processBatch_no_break f maxM
          (pending.take (min 10 (maxM - acc.redriven))) acc hnb
        have hcle := List.countP_le_length (p := f)
          (l := pending.take (min 10 (maxM - acc.redriven)))
        have hr : (processBatch f maxM acc
            (pending.take (min 10 (maxM - acc.redriven)))).redriven =
            acc.redriven + (pending.take (min 10 (maxM - acc.redriven))).countP f := by
          rw [hpb]
        obtain ⟨hred, pre, post, hsplit, hatt, hsent, hdel, hfail⟩ :=
          ih (pending.drop (min 10 (maxM - acc.redriven)))
            (processBatch f maxM acc (pending.take (min 10 (maxM - acc.redriven))))
            hlen' (by rw [hr]; omega)
        have hcount : pending.countP f =
            (pending.take (min 10 (maxM - acc.redriven))).countP f +
              (pending.drop (min 10 (maxM - acc.redriven))).countP f := by
          conv_lhs =>
            rw [← List.take_append_drop (min 10 (maxM - acc.redriven)) pending]
          rw [List.countP_append]
        refine ⟨?_, pending.take (min 10 (maxM - acc.redriven)) ++ pre, post, ?_, ?_, ?_, ?_, ?_⟩
        · rw [hred, hr]
          omega
        · conv_lhs =>
            rw [← List.take_append_drop (min 10 (maxM - acc.redriven)) pending]
          rw [hsplit, List.append_assoc]
        · rw [hatt, hpb]
          dsimp only
          rw [List.append_assoc]
        · rw [hsent, hpb]
          dsimp only
          rw [List.filter_append, List.append_assoc]
        · rw [hdel, hpb]
          dsimp only
          rw [List.filter_append, List.append_assoc]
        · rw [hfail, hpb]
          dsimp only
          rw [List.countP_append]
          omega
    · rw [if_neg h]
      exact ⟨by dsimp only; omega, [], pending, by simp, by simp, by simp, by simp, by simp⟩

/-! ## Claim theorem: the DLQ redrive -/

/-- Claim C9 as amended: the claim as frozen — at least `maxM` messages
merely *available* suffices for exactly `maxM` to be moved — is refuted
by `claim_C9_dlq_redrive_counterexample` (a failed send consumes an
available message without a redrive, and the loop then breaks on an
empty receive).  The amendment strengthens only that hypothesis, as the
counterexample forces: with at least `maxM` *sendable* messages
available (the spec scenario has 10 available, one forced failure,
limit 5), exactly `maxM` messages are moved; messages are deleted from
the DLQ exactly when their re-send succeeded (`deleted = sent`, and
everything deleted passed `sendOk`); the attempted messages form a front
prefix of the queue within which the failure counter counts exactly the
failed sends — a failure leaves its message un-deleted and does not stop
the loop from reaching the cap. -/
theorem claim_C9_dlq_redrive (sendOk : SqsMsg → Bool) (maxM : Nat) (dlq : List SqsMsg)
    (h : maxM ≤ dlq.countP sendOk) :
    (dlq_redrive_handler sendOk maxM dlq).redrivenCount = maxM ∧
    (dlq_redrive_handler sendOk maxM dlq).deleted =
      (dlq_redrive_handler sendOk maxM dlq).sent ∧
    (∃ pre post, dlq = pre ++ post ∧
      (dlq_redrive_handler sendOk maxM dlq).attempted = pre ∧
      (dlq_redrive_handler sendOk maxM dlq).deleted = pre.filter sendOk ∧
      (dlq_redrive_handler sendOk maxM dlq).failedCount =
        pre.countP (fun m => !sendOk m)) ∧
    (∀ m ∈ (dlq_redrive_handler sendOk maxM dlq).deleted, sendOk m = true) := by
  unfold dlq_redrive_handler
  by_cases hz : dlq.length = 0
  · rw [if_pos hz]
    have hdlq : dlq = [] := List.length_eq_zero.mp hz
    subst hdlq
    simp only [List.countP_nil] at h
    exact ⟨by dsimp only; omega, rfl, ⟨[], [], by simp, rfl, rfl, by simp⟩, by simp⟩
  · rw [if_neg hz]
    dsimp only
    obtain ⟨hred, pre, post, hsplit, hatt, hsent, hdel, hfail⟩ :=
      redriveLoop_spec sendOk maxM dlq.length dlq initAcc (le_refl _) (by simp [initAcc])
    refine ⟨?_, ?_, ⟨pre, post, hsplit, ?_, ?_, ?_⟩, ?_⟩
    · rw [hred]
      dsimp [initAcc]
      omega
    · rw [hdel, hsent]
      rfl
    · rw [hatt]
      simp [initAcc]
    · rw [hdel]
      simp [initAcc]
    · rw [hfail]
      simp [initAcc]
    · intro m hm
      rw [hdel] at hm
      simp only [initAcc, List.nil_append] at hm
      exact (List.mem_filter.mp hm).2

/-- Witness for C9 at the spec scenario: ten DLQ messages, limit 5, one
forced send failure. -/
theorem claim_C9_dlq_redrive_witness :
    5 ≤ dlqFix.countP sendOkFix ∧
      (dlq_redrive_handler sendOkFix 5 dlqFix).redrivenCount = 5 ∧
      (dlq_redrive_handler sendOkFix 5 dlqFix).deleted =
        (dlq_redrive_handler sendOkFix 5 dlqFix).sent :=
  ⟨by decide, (claim_C9_dlq_redrive sendOkFix 5 dlqFix (by decide)).1,
    (claim_C9_dlq_redrive sendOkFix 5 dlqFix (by decide)).2.1⟩

/-- Counterexample to claim C9 as frozen: with five messages available in
the DLQ — at least `maxMessages = 5` available — and one send failure,
the handler moves only four messages, not exactly five: the failed
message is received (hence unavailable to later receives) but never
redriven, and the loop then breaks on an empty receive. -/
theorem claim_C9_dlq_redrive_counterexample :
    dlqFix5.length = 5 ∧
      (dlq_redrive_handler sendOkFix 5 dlqFix5).redrivenCount = 4 ∧
      (dlq_redrive_handler sendOkFix 5 dlqFix5).redrivenCount ≠ 5 := by
  refine ⟨rfl, by decide, by decide⟩
